import Mathlib

/-!
Verification of the AniListrr pipeline (src/main.py).

The single Python source file is shallowly embedded below.  External
effects (the wall clock, the two HTTP endpoints, the process environment
and the output files) are passed in as explicit parameters, and the run
of the orchestrator is modelled as an event trace together with an
Except-valued result.  Python floats for anime scores are modelled as
rationals; Python ints as Lean integers; Python None / missing dict keys
as Option.
-/

/-- Embeds the month-to-season bucket chain of get_current_season_and_year
(src/main.py lines 25-32): winter 1,2,3; spring 4,5,6; summer 7,8,9; else fall. -/
def season_of_month (month : Int) : String :=
  if month = 1 ∨ month = 2 ∨ month = 3 then "winter"
  else if month = 4 ∨ month = 5 ∨ month = 6 then "spring"
  else if month = 7 ∨ month = 8 ∨ month = 9 then "summer"
  else "fall"

/-- Embeds get_current_season_and_year (src/main.py lines 7-34).  The wall
clock datetime.now() is passed explicitly as nowMonth / nowYear.  The single
underflow conditional of the source is kept as written. -/
def get_current_season_and_year (nowMonth nowYear : Int) (neg_seasons : Nat) :
    String × Int :=
  let month0 := nowMonth - (neg_seasons : Int) * 3
  let month := if month0 < 1 then 12 + month0 else month0
  let year := if month0 < 1 then nowYear - 1 else nowYear
  (season_of_month month, year)

/-- Modelled from the spec: direct calendar subtraction of k months from
(month, year) with correct year rollover, using modular arithmetic over 12
("use modular arithmetic over 12 rather than a single conditional").
The month index is shifted to 0-based form before the Euclidean mod/div. -/
def calendar_months_back (month year : Int) (k : Nat) : String × Int :=
  let idx := month - (k : Int) - 1
  (season_of_month (idx % 12 + 1), year + idx / 12)

/-- A MAL catalog entry's "node" dict (src/main.py lines 76-81).  Every field
read by the source is optional: a missing key falls back to the default used
at its read site.  Scores (Python floats) are modelled as rationals. -/
structure Node where
  id : Option Int
  title : Option String
  mean : Option ℚ
  num_scoring_users : Option Int
  media_type : Option String
deriving DecidableEq, Repr

/-- A raw element of the MAL response's data array; entry.get("node", {}) in
the source.  An entry lacking the node key is the Node with all fields none. -/
structure Entry where
  node : Node
deriving DecidableEq, Repr

/-- Python truthiness of the media_type_filter parameter (src/main.py line
84): None and the empty string are falsy, every other string is truthy. -/
def optStrTruthy : Option String → Bool
  | none => false
  | some s => s != ""

/-- Embeds filter_anime_entries (src/main.py lines 66-90).  The loop with
its continue statements becomes structural recursion over the entry list. -/
def filter_anime_entries (entries : List Entry) (min_score : ℚ)
    (min_votes : Int) (media_type_filter : Option String) :
    List (Option Int × Option String) :=
  match entries with
  | [] => []
  | entry :: rest =>
    let anime_data := entry.node
    let mal_id := anime_data.id
    let score := anime_data.mean.getD 0
    let title := anime_data.title
    let num_scoring_users := anime_data.num_scoring_users.getD 0
    let media_type := (anime_data.media_type.getD "").toLower
    if optStrTruthy media_type_filter &&
        media_type != (media_type_filter.getD "").toLower then
      filter_anime_entries rest min_score min_votes media_type_filter
    else if min_score ≤ score ∧ min_votes ≤ num_scoring_users then
      (mal_id, title) :: filter_anime_entries rest min_score min_votes media_type_filter
    else
      filter_anime_entries rest min_score min_votes media_type_filter

/-- The filter predicate of src/main.py lines 84-87 in declarative form:
score and vote thresholds plus the optional case-insensitive media type
match (skipped when the filter argument is falsy). -/
def entry_passes (min_score : ℚ) (min_votes : Int) (media_type_filter : Option String)
    (e : Entry) : Bool :=
  decide (min_score ≤ e.node.mean.getD 0) &&
  decide (min_votes ≤ e.node.num_scoring_users.getD 0) &&
  (!optStrTruthy media_type_filter ||
    (e.node.media_type.getD "").toLower == (media_type_filter.getD "").toLower)

/-- The per-source-id value dict stored by create_mal_to_db_mapping
(src/main.py lines 110-113): it has exactly the two keys tvdb_id and
tmdb_id, read back through the string key db + "_id" at line 131. -/
structure DbIds where
  tvdb_id : Option Int
  tmdb_id : Option Int
deriving DecidableEq, Repr

/-- Python dict .get on the stored value dict: any key other than the two
present ones yields None. -/
def DbIds.get (d : DbIds) (key : String) : Option Int :=
  if key = "tvdb_id" then d.tvdb_id
  else if key = "tmdb_id" then d.tmdb_id
  else none

/-- One record of the third-party mapping feed (src/main.py lines 102-108).
A mal_id key that is absent and one that is present with value None lead to
the same rejection in the source, so both are modelled as none. -/
structure FeedItem where
  mal_id : Option Int
  tvdb_id : Option Int
  themoviedb_id : Option Int
deriving DecidableEq, Repr

/-- Embeds create_mal_to_db_mapping (src/main.py lines 92-115) applied to an
already-downloaded feed.  The Python dict is modelled as a function from
source id to optional value; assignment overwrites pointwise. -/
def create_mal_to_db_mapping (data : List FeedItem) : Int → Option DbIds :=
  data.foldl
    (fun m item =>
      match item.mal_id with
      | some mal_id =>
        if item.tvdb_id ≠ none ∨ item.themoviedb_id ≠ none then
          fun k => if k = mal_id then some ⟨item.tvdb_id, item.themoviedb_id⟩ else m k
        else m
      | none => m)
    (fun _ => none)

/-- The three outputs of map_mal_to_db (src/main.py lines 117-144): the
db_ids set (as its insertion-ordered list), the found audit lines, and the
unknown audit lines (printed by the source rather than returned). -/
structure MapResult where
  db_ids : List Int
  found_titles : List String
  unknown_titles : List String
deriving DecidableEq, Repr

/-- Python str applied to a value that is either an int or None. -/
def pyStr : Option Int → String
  | none => "None"
  | some i => toString i

/-- One iteration of the loop in map_mal_to_db (src/main.py lines 127-139). -/
def map_step (mal_to_db_map : Int → Option DbIds) (db : String)
    (acc : MapResult) (cand : Int × String) : MapResult :=
  let mal_id := cand.1
  let title := cand.2
  match mal_to_db_map mal_id with
  | some dbs =>
    let db_id := dbs.get (db ++ "_id")
    let pre_str := toString mal_id ++ "->" ++ pyStr db_id ++ ": "
    match db_id with
    | none => { acc with unknown_titles := acc.unknown_titles ++ [pre_str ++ title] }
    | some i =>
      if i ∈ acc.db_ids then acc
      else { acc with db_ids := acc.db_ids ++ [i],
                      found_titles := acc.found_titles ++ [pre_str ++ title] }
  | none =>
    let pre_str := toString mal_id ++ "->?" ++ ": "
    { acc with unknown_titles := acc.unknown_titles ++ [pre_str ++ title] }

/-- Embeds map_mal_to_db (src/main.py lines 117-144).  The db_ids set is
kept as the insertion-ordered duplicate-free list of its elements. -/
def map_mal_to_db (mal_ids_and_titles : List (Int × String))
    (mal_to_db_map : Int → Option DbIds) (db : String) : MapResult :=
  mal_ids_and_titles.foldl (map_step mal_to_db_map db) ⟨[], [], []⟩

/-- The target id a candidate's source id resolves to: some t exactly when
the source id is in the table with a non-null db-field. -/
def resolve_db_id (mal_to_db_map : Int → Option DbIds) (db : String)
    (mal_id : Int) : Option Int :=
  match mal_to_db_map mal_id with
  | none => none
  | some dbs => dbs.get (db ++ "_id")

/-- A candidate whose source id is absent from the table or maps to a null
db-field; exactly the candidates the source routes to unknown_titles. -/
def cand_unmapped (mal_to_db_map : Int → Option DbIds) (db : String)
    (c : Int × String) : Bool :=
  match mal_to_db_map c.1 with
  | none => true
  | some dbs => (dbs.get (db ++ "_id")).isNone

/-- The audit line the source emits for an unmapped candidate. -/
def unknown_line (mal_to_db_map : Int → Option DbIds) (db : String)
    (c : Int × String) : String :=
  match mal_to_db_map c.1 with
  | none => toString c.1 ++ "->?" ++ ": " ++ c.2
  | some dbs => toString c.1 ++ "->" ++ pyStr (dbs.get (db ++ "_id")) ++ ": " ++ c.2

/-- The audit line the source emits when candidate c wins target id t. -/
def found_line (c : Int × String) (t : Int) : String :=
  toString c.1 ++ "->" ++ pyStr (some t) ++ ": " ++ c.2

/-- Embeds Python sorted on a list of integers (src/main.py lines 191 and
204); any correct comparison sort models sorted here. -/
def pySortedInt (l : List Int) : List Int := List.insertionSort (· ≤ ·) l

/-- Embeds Python sorted on a list of strings (src/main.py lines 201 and
214); Python and Lean both order strings lexicographically by code point. -/
def pySortedStr (l : List String) : List String := List.insertionSort (· ≤ ·) l

/-- JSON string quoting as json.dump performs it on the strings this program
writes (decimal digits, an optional minus sign, fixed field names): none of
them ever needs escaping. -/
def json_quote (s : String) : String := "\"" ++ s ++ "\""

/-- Compact json.dump of a list of single-field objects with string values,
with separators (",", ":") as passed at src/main.py lines 198 and 211. -/
def json_dump_records (records : List (String × String)) : String :=
  "[" ++ String.intercalate ","
    (records.map (fun r => "\x7b" ++ json_quote r.1 ++ ":" ++ json_quote r.2 ++ "\x7d"))
    ++ "]"

/-- The sonarr_list built at src/main.py lines 190-192: one single-field
object per sorted tvdb id, the id stringified. -/
def sonarr_list (tvdb_ids : List Int) : List (String × String) :=
  (pySortedInt tvdb_ids).map (fun tvdb_id => ("tvdbId", toString tvdb_id))

/-- The radarr_list built at src/main.py lines 203-205. -/
def radarr_list (tmdb_ids : List Int) : List (String × String) :=
  (pySortedInt tmdb_ids).map (fun tmdb_id => ("id", toString tmdb_id))

/-- The TV output stage of main (src/main.py lines 190-201): the contents
written to filtered_anime.json and filtered_anime.txt. -/
def main_tv_outputs (tvdb_ids : List Int) (tv_titles : List String) :
    String × String :=
  (json_dump_records (sonarr_list tvdb_ids),
   "MAL->TVDB: Title\n" ++ String.intercalate "\n" (pySortedStr tv_titles))

/-- The movie output stage of main (src/main.py lines 203-214): the contents
written to filtered_anime_movies.json and filtered_anime_movies.txt. -/
def main_movie_outputs (tmdb_ids : List Int) (movie_titles : List String) :
    String × String :=
  (json_dump_records (radarr_list tmdb_ids),
   "MAL->TMDB: Title\n" ++ String.intercalate "\n" (pySortedStr movie_titles))

/-- The most-significant-first decimal digit character list of a natural
number; used below to reason about the value printed by Nat.repr. -/
def digitsMSB (n : Nat) : List Char :=
  if _h : n < 10 then [Nat.digitChar n]
  else digitsMSB (n / 10) ++ [Nat.digitChar (n % 10)]
termination_by n
decreasing_by exact Nat.div_lt_self (by omega) (by omega)

/-- Modelled from the spec: the repository contains no reader, so the
round-trip read-back is modelled per the spec's words — the JSON library
parses the written array back into the list of single-field records and each
object's id field string is converted to an integer.  The decimal conversion
accepts an optional leading minus sign followed by digits, as Python int
does on the strings this program writes. -/
def parse_int_string (s : String) : Option Int :=
  if s.data.head? = some '-' then
    ((String.mk s.data.tail).toNat?).map (fun n => -(n : Int))
  else
    s.toNat?.map (fun n => (n : Int))

/-- Modelled from the spec: converting each parsed object's id field string
back to an integer. -/
def read_back_ids (records : List (String × String)) : List Int :=
  records.filterMap (fun r => parse_int_string r.2)

/-- Observable effects of a run: network requests and file writes, in
program order. -/
inductive Event where
  | netRequest (url : String)
  | fileWrite (path : String) (content : String)
deriving DecidableEq, Repr

/-- The configuration error raised at src/main.py line 52. -/
inductive PipelineError where
  | configError (msg : String)
deriving DecidableEq, Repr

/-- The mapping feed URL (src/main.py line 93). -/
def mapping_url : String :=
  "https://raw.githubusercontent.com/Fribb/anime-lists/refs/heads/master/anime-list-mini.json"

/-- The seasonal catalog URL template (src/main.py line 41). -/
def seasonal_url (year : Int) (season : String) : String :=
  "https://api.myanimelist.net/v2/anime/season/" ++ toString year ++ "/" ++ season

/-- Embeds get_seasonal_anime (src/main.py lines 36-64) as a trace step.
The credential is read from the environment (os.environ.get with default "")
and checked before the network request; the catalog response body is
supplied by the oracle parameter.  Transport failures are outside the claims
proved here, so the oracle always answers. -/
def get_seasonal_anime_run (env_mal_client_id : Option String)
    (catalog : Int → String → List Entry) (year : Int) (season : String) :
    List Event × Except PipelineError (List Entry) :=
  let mal_client_id := env_mal_client_id.getD ""
  if mal_client_id = "" then
    ([], Except.error (PipelineError.configError
      "MAL_CLIENT_ID environment variable is not set!"))
  else
    ([Event.netRequest (seasonal_url year season)], Except.ok (catalog year season))

/-- The season-fetch loop of main (src/main.py lines 150-156) over the given
offsets, accumulating events and raw entries and aborting on the first
error. -/
def fetch_seasons_run (nowMonth nowYear : Int) (env : Option String)
    (catalog : Int → String → List Entry) :
    List Nat → List Event × Except PipelineError (List Entry)
  | [] => ([], Except.ok [])
  | i :: rest =>
    let sy := get_current_season_and_year nowMonth nowYear i
    let step := get_seasonal_anime_run env catalog sy.2 sy.1
    match step.2 with
    | Except.error e => (step.1, Except.error e)
    | Except.ok entries =>
      let next := fetch_seasons_run nowMonth nowYear env catalog rest
      match next.2 with
      | Except.error e => (step.1 ++ next.1, Except.error e)
      | Except.ok more => (step.1 ++ next.1, Except.ok (entries ++ more))

/-- Couples the filter output to map_mal_to_db's candidate pairs.  On an
entry whose node lacks id or title the source's int() call or string
concatenation would raise; such entries are dropped here, a modelling
choice no theorem below depends on (the run-level theorems constrain only
the trace up to the credential check). -/
def to_candidates (l : List (Option Int × Option String)) : List (Int × String) :=
  l.filterMap (fun p =>
    match p with
    | (some i, some t) => some (i, t)
    | _ => none)

/-- Embeds main (src/main.py lines 146-214).  The wall clock, environment,
mapping feed and catalog responses are explicit inputs; the result is the
event trace (network requests and file writes, in program order) together
with either the configuration error or completion. -/
def main_run (nowMonth nowYear : Int) (env : Option String)
    (feed : List FeedItem) (catalog : Int → String → List Entry) :
    List Event × Except PipelineError Unit :=
  let mal_to_db_map := create_mal_to_db_mapping feed
  let ev0 := [Event.netRequest mapping_url]
  let fetched := fetch_seasons_run nowMonth nowYear env catalog [0, 1, 2, 3]
  match fetched.2 with
  | Except.error e => (ev0 ++ fetched.1, Except.error e)
  | Except.ok raw_entries =>
    let tv := filter_anime_entries raw_entries (39/5 : ℚ) 1000 (some "tv")
    let ona := filter_anime_entries raw_entries (39/5 : ℚ) 1000 (some "ona")
    let r_tv := map_mal_to_db (to_candidates (tv ++ ona)) mal_to_db_map "tvdb"
    let movies := filter_anime_entries raw_entries (77/10 : ℚ) 1000 (some "movie")
    let r_mov := map_mal_to_db (to_candidates movies) mal_to_db_map "tmdb"
    let tv_out := main_tv_outputs r_tv.db_ids r_tv.found_titles
    let mov_out := main_movie_outputs r_mov.db_ids r_mov.found_titles
    (ev0 ++ fetched.1 ++
      [Event.fileWrite "filtered_anime.json" tv_out.1,
       Event.fileWrite "filtered_anime.txt" tv_out.2,
       Event.fileWrite "filtered_anime_movies.json" mov_out.1,
       Event.fileWrite "filtered_anime_movies.txt" mov_out.2],
     Except.ok ())

/-- A table sending both source ids 1 and 2 to the same tvdb id 100; used by
the concrete duplicate-target instances below. -/
def tbl_dup : Int → Option DbIds :=
  fun k => if k = 1 ∨ k = 2 then some ⟨some 100, none⟩ else none

/-- The cross-reference table of the spec's resolution scenario: source id 1
maps to tvdb 100, source id 2 is present with a null tvdb id. -/
def tbl_scenario : Int → Option DbIds :=
  fun k => if k = 1 then some ⟨some 100, none⟩
           else if k = 2 then some ⟨none, none⟩ else none

/-- The imperative filter loop agrees with the declarative
filter-then-project form; proved once and reused below. -/
theorem filter_anime_entries_eq (entries : List Entry) (min_score : ℚ)
    (min_votes : Int) (filt : Option String) :
    filter_anime_entries entries min_score min_votes filt =
    (entries.filter (entry_passes min_score min_votes filt)).map
      (fun e => (e.node.id, e.node.title)) := by
  induction entries with
  | nil => rfl
  | cons e rest ih =>
    simp only [filter_anime_entries, List.filter_cons]
    cases hof : optStrTruthy filt with
    | false =>
      by_cases h2 : min_score ≤ e.node.mean.getD 0 ∧ min_votes ≤ e.node.num_scoring_users.getD 0
      · have hp : entry_passes min_score min_votes filt e = true := by
          simp [entry_passes, h2.1, h2.2, hof]
        simp [hof, h2, hp, ih]
      · have hp : entry_passes min_score min_votes filt e = false := by
          rcases not_and_or.mp h2 with h | h
          · simp [entry_passes, h]
          · simp [entry_passes, h]
        simp [hof, h2, hp, ih]
    | true =>
      by_cases hm : (e.node.media_type.getD "").toLower = (filt.getD "").toLower
      · by_cases h2 : min_score ≤ e.node.mean.getD 0 ∧ min_votes ≤ e.node.num_scoring_users.getD 0
        · have hp : entry_passes min_score min_votes filt e = true := by
            simp [entry_passes, h2.1, h2.2, hm]
          simp [hof, hm, h2, hp, ih]
        · have hp : entry_passes min_score min_votes filt e = false := by
            rcases not_and_or.mp h2 with h | h
            · simp [entry_passes, h]
            · simp [entry_passes, h]
          simp [hof, hm, h2, hp, ih]
      · have hp : entry_passes min_score min_votes filt e = false := by
          simp [entry_passes, hof, hm]
        simp [hof, hm, hp, ih]

theorem map_foldl_unknown (tbl : Int → Option DbIds) (db : String) :
    ∀ (l : List (Int × String)) (acc : MapResult),
    (l.foldl (map_step tbl db) acc).unknown_titles =
      acc.unknown_titles ++ (l.filter (cand_unmapped tbl db)).map (unknown_line tbl db) := by
  intro l
  induction l with
  | nil => intro acc; simp
  | cons c rest ih =>
    intro acc
    rw [List.foldl_cons, ih, List.filter_cons]
    rcases h : tbl c.1 with _ | dbs
    · simp [map_step, cand_unmapped, unknown_line, h]
    · rcases h2 : dbs.get (db ++ "_id") with _ | i
      · simp [map_step, cand_unmapped, unknown_line, h, h2]
      · by_cases h3 : i ∈ acc.db_ids
        · simp [map_step, cand_unmapped, h, h2, h3]
        · simp [map_step, cand_unmapped, h, h2, h3]

theorem map_foldl_mem_ids (tbl : Int → Option DbIds) (db : String) :
    ∀ (l : List (Int × String)) (acc : MapResult) (t : Int),
    t ∈ (l.foldl (map_step tbl db) acc).db_ids ↔
      t ∈ acc.db_ids ∨ ∃ c ∈ l, resolve_db_id tbl db c.1 = some t := by
  intro l
  induction l with
  | nil => intro acc t; simp
  | cons c rest ih =>
    intro acc t
    rw [List.foldl_cons, ih]
    rcases h : tbl c.1 with _ | dbs
    · simp [map_step, resolve_db_id, h]
    · rcases h2 : dbs.get (db ++ "_id") with _ | i
      · simp [map_step, resolve_db_id, h, h2]
      · have hR : resolve_db_id tbl db c.1 = some i := by simp [resolve_db_id, h, h2]
        by_cases h3 : i ∈ acc.db_ids
        · have hst : map_step tbl db acc c = acc := by simp [map_step, h, h2, h3]
          rw [hst]
          constructor
          · rintro (ha | ⟨c1, hc1, hR1⟩)
            · exact Or.inl ha
            · exact Or.inr ⟨c1, List.mem_cons_of_mem _ hc1, hR1⟩
          · rintro (ha | ⟨c1, hc1, hR1⟩)
            · exact Or.inl ha
            · rcases List.mem_cons.mp hc1 with rfl | hc2
              · rw [hR] at hR1
                injection hR1 with hti
                exact Or.inl (hti ▸ h3)
              · exact Or.inr ⟨c1, hc2, hR1⟩
        · have hst : map_step tbl db acc c =
              { acc with db_ids := acc.db_ids ++ [i],
                         found_titles := acc.found_titles ++ [found_line c i] } := by
            simp [map_step, h, h2, h3, found_line]
          rw [hst]
          simp only [List.mem_append, List.mem_singleton]
          constructor
          · rintro ((ha | rfl) | ⟨c1, hc1, hR1⟩)
            · exact Or.inl ha
            · exact Or.inr ⟨c, List.mem_cons_self c rest, hR⟩
            · exact Or.inr ⟨c1, List.mem_cons_of_mem _ hc1, hR1⟩
          · rintro (ha | ⟨c1, hc1, hR1⟩)
            · exact Or.inl (Or.inl ha)
            · rcases List.mem_cons.mp hc1 with rfl | hc2
              · rw [hR] at hR1
                injection hR1 with hti
                exact Or.inl (Or.inr hti.symm)
              · exact Or.inr ⟨c1, hc2, hR1⟩

theorem map_foldl_nodup (tbl : Int → Option DbIds) (db : String) :
    ∀ (l : List (Int × String)) (acc : MapResult), acc.db_ids.Nodup →
    (l.foldl (map_step tbl db) acc).db_ids.Nodup := by
  intro l
  induction l with
  | nil => intro acc hacc; simpa using hacc
  | cons c rest ih =>
    intro acc hacc
    rw [List.foldl_cons]
    apply ih
    rcases h : tbl c.1 with _ | dbs
    · simpa [map_step, h] using hacc
    · rcases h2 : dbs.get (db ++ "_id") with _ | i
      · simpa [map_step, h, h2] using hacc
      · by_cases h3 : i ∈ acc.db_ids
        · simpa [map_step, h, h2, h3] using hacc
        · simp [map_step, h, h2, h3, List.nodup_append, hacc]

theorem map_foldl_found_len (tbl : Int → Option DbIds) (db : String) :
    ∀ (l : List (Int × String)) (acc : MapResult),
    (l.foldl (map_step tbl db) acc).found_titles.length + acc.db_ids.length =
    (l.foldl (map_step tbl db) acc).db_ids.length + acc.found_titles.length := by
  intro l
  induction l with
  | nil => intro acc; simp only [List.foldl_nil]; omega
  | cons c rest ih =>
    intro acc
    rw [List.foldl_cons]
    have hrec := ih (map_step tbl db acc c)
    rcases h : tbl c.1 with _ | dbs
    · have hst : map_step tbl db acc c =
          { acc with unknown_titles := acc.unknown_titles ++
              [toString c.1 ++ "->?" ++ ": " ++ c.2] } := by
        simp [map_step, h]
      rw [hst] at hrec ⊢
      simp only [List.length_append, List.length_singleton] at hrec ⊢
      omega
    · rcases h2 : dbs.get (db ++ "_id") with _ | i
      · have hst : map_step tbl db acc c =
            { acc with unknown_titles := acc.unknown_titles ++
                [toString c.1 ++ "->" ++ pyStr none ++ ": " ++ c.2] } := by
          simp [map_step, h, h2]
        rw [hst] at hrec ⊢
        simp only [List.length_append, List.length_singleton] at hrec ⊢
        omega
      · by_cases h3 : i ∈ acc.db_ids
        · have hst : map_step tbl db acc c = acc := by simp [map_step, h, h2, h3]
          rw [hst] at hrec ⊢
          omega
        · have hst : map_step tbl db acc c =
              { acc with db_ids := acc.db_ids ++ [i],
                         found_titles := acc.found_titles ++ [found_line c i] } := by
            simp [map_step, h, h2, h3, found_line]
          rw [hst] at hrec ⊢
          simp only [List.length_append, List.length_singleton] at hrec ⊢
          omega

theorem map_foldl_out_len (tbl : Int → Option DbIds) (db : String) :
    ∀ (l : List (Int × String)) (acc : MapResult),
    (l.foldl (map_step tbl db) acc).found_titles.length +
      (l.foldl (map_step tbl db) acc).unknown_titles.length ≤
    acc.found_titles.length + acc.unknown_titles.length + l.length := by
  intro l
  induction l with
  | nil => intro acc; simp
  | cons c rest ih =>
    intro acc
    rw [List.foldl_cons]
    have hrec := ih (map_step tbl db acc c)
    rcases h : tbl c.1 with _ | dbs
    · have hst : map_step tbl db acc c =
          { acc with unknown_titles := acc.unknown_titles ++
              [toString c.1 ++ "->?" ++ ": " ++ c.2] } := by
        simp [map_step, h]
      rw [hst] at hrec ⊢
      simp only [List.length_append, List.length_singleton, List.length_cons, List.length_nil] at hrec ⊢
      omega
    · rcases h2 : dbs.get (db ++ "_id") with _ | i
      · have hst : map_step tbl db acc c =
            { acc with unknown_titles := acc.unknown_titles ++
                [toString c.1 ++ "->" ++ pyStr none ++ ": " ++ c.2] } := by
          simp [map_step, h, h2]
        rw [hst] at hrec ⊢
        simp only [List.length_append, List.length_singleton, List.length_cons, List.length_nil] at hrec ⊢
        omega
      · by_cases h3 : i ∈ acc.db_ids
        · have hst : map_step tbl db acc c = acc := by simp [map_step, h, h2, h3]
          rw [hst] at hrec ⊢
          simp only [List.length_cons]
          omega
        · have hst : map_step tbl db acc c =
              { acc with db_ids := acc.db_ids ++ [i],
                         found_titles := acc.found_titles ++ [found_line c i] } := by
            simp [map_step, h, h2, h3, found_line]
          rw [hst] at hrec ⊢
          simp only [List.length_append, List.length_singleton, List.length_cons, List.length_nil] at hrec ⊢
          omega

theorem map_foldl_found_mono (tbl : Int → Option DbIds) (db : String) :
    ∀ (l : List (Int × String)) (acc : MapResult) (s : String),
    s ∈ acc.found_titles → s ∈ (l.foldl (map_step tbl db) acc).found_titles := by
  intro l
  induction l with
  | nil => intro acc s hs; simpa using hs
  | cons c rest ih =>
    intro acc s hs
    rw [List.foldl_cons]
    apply ih
    rcases h : tbl c.1 with _ | dbs
    · simpa [map_step, h] using hs
    · rcases h2 : dbs.get (db ++ "_id") with _ | i
      · simpa [map_step, h, h2] using hs
      · by_cases h3 : i ∈ acc.db_ids
        · simpa [map_step, h, h2, h3] using hs
        · simp [map_step, h, h2, h3, hs]

theorem map_foldl_first_wins (tbl : Int → Option DbIds) (db : String) :
    ∀ (l : List (Int × String)) (acc : MapResult) (t : Int), t ∉ acc.db_ids →
    t ∈ (l.foldl (map_step tbl db) acc).db_ids →
    ∃ c, l.find? (fun q => resolve_db_id tbl db q.1 == some t) = some c ∧
      found_line c t ∈ (l.foldl (map_step tbl db) acc).found_titles := by
  intro l
  induction l with
  | nil =>
    intro acc t hnot hmem
    rw [List.foldl_nil] at hmem
    exact absurd hmem hnot
  | cons c rest ih =>
    intro acc t hnot hmem
    rw [List.foldl_cons] at hmem ⊢
    by_cases hc : resolve_db_id tbl db c.1 = some t
    · refine ⟨c, ?_, ?_⟩
      · rw [List.find?_cons_of_pos]
        simp [hc]
      · rcases h : tbl c.1 with _ | dbs
        · simp [resolve_db_id, h] at hc
        · rcases h2 : dbs.get (db ++ "_id") with _ | i
          · simp [resolve_db_id, h, h2] at hc
          · simp only [resolve_db_id, h, h2] at hc
            injection hc with hit
            subst hit
            have hst : map_step tbl db acc c =
                { acc with db_ids := acc.db_ids ++ [i],
                           found_titles := acc.found_titles ++ [found_line c i] } := by
              simp [map_step, h, h2, hnot, found_line]
            rw [hst]
            apply map_foldl_found_mono
            simp
    · rw [List.find?_cons_of_neg]
      · apply ih (map_step tbl db acc c) t ?_ hmem
        rcases h : tbl c.1 with _ | dbs
        · simpa [map_step, h] using hnot
        · rcases h2 : dbs.get (db ++ "_id") with _ | i
          · simpa [map_step, h, h2] using hnot
          · have hit : i ≠ t := by
              intro hit
              rw [hit] at h2
              exact hc (by simp [resolve_db_id, h, h2])
            by_cases h3 : i ∈ acc.db_ids
            · simpa [map_step, h, h2, h3] using hnot
            · simp only [map_step, h, h2, if_neg h3]
              simp [hnot]
              exact fun hh => hit hh.symm
      · simp [hc]

theorem create_mapping_char (data : List FeedItem) (k : Int) :
    create_mal_to_db_mapping data k =
      ((data.filter (fun it => it.mal_id == some k &&
          (it.tvdb_id.isSome || it.themoviedb_id.isSome))).getLast?).map
        (fun it => (⟨it.tvdb_id, it.themoviedb_id⟩ : DbIds)) := by
  induction data using List.reverseRecOn with
  | nil => rfl
  | append_singleton l x ih =>
    rw [create_mal_to_db_mapping, List.foldl_append, List.foldl_cons, List.foldl_nil,
      List.filter_append, List.filter_cons, List.filter_nil]
    rcases hm : x.mal_id with _ | mid
    · simpa [create_mal_to_db_mapping, hm] using ih
    · by_cases hv : x.tvdb_id ≠ none ∨ x.themoviedb_id ≠ none
      · have hsome : (x.tvdb_id.isSome || x.themoviedb_id.isSome) = true := by
          rcases hv with hv | hv
          · simp [Option.isSome_iff_ne_none, hv]
          · simp [Option.isSome_iff_ne_none, hv]
        by_cases hk : k = mid
        · subst hk
          simp [create_mal_to_db_mapping, hm, hv, hsome]
        · have hne : (x.mal_id == some k) = false := by
            simp [hm]
            exact fun hh => hk hh.symm
          simp only [hne, Bool.false_and, if_neg (by simp : ¬ (false = true)),
            List.append_nil]
          simp only [create_mal_to_db_mapping] at ih
          have hk2 : ¬ (mid = k) := fun hh => hk hh.symm
          simp [hm, hv, hk2, ih]
          exact fun hh => absurd hh hk
      · have hsome : (x.tvdb_id.isSome || x.themoviedb_id.isSome) = false := by
          push_neg at hv
          simp [hv.1, hv.2]
        simp only [hsome, Bool.and_false, if_neg (by simp : ¬ (false = true)),
          List.append_nil]
        simp only [create_mal_to_db_mapping] at ih
        simp [hm, hv, ih]

theorem toDigitsCore_eq_digitsMSB (fuel n : Nat) (ds : List Char) (hf : n < fuel) :
    Nat.toDigitsCore 10 fuel n ds = digitsMSB n ++ ds := by
  induction fuel generalizing n ds with
  | zero => omega
  | succ f ih =>
    rw [Nat.toDigitsCore]
    by_cases h0 : n / 10 = 0
    · have hn : n < 10 := by omega
      rw [if_pos h0]
      conv_rhs => rw [digitsMSB]
      rw [dif_pos hn, Nat.mod_eq_of_lt hn]
      rfl
    · have hn : ¬ n < 10 := by
        intro hlt
        exact h0 (Nat.div_eq_of_lt hlt)
      rw [if_neg h0, ih (n / 10) _ (by omega)]
      conv_rhs => rw [digitsMSB]
      rw [dif_neg hn]
      simp

theorem digitsMSB_all_digits (n : Nat) : ∀ c ∈ digitsMSB n, c.isDigit = true := by
  induction n using Nat.strong_induction_on with
  | _ n ih =>
    have hd : ∀ k, k < 10 → (Nat.digitChar k).isDigit = true := by decide
    by_cases h : n < 10
    · rw [digitsMSB, dif_pos h]
      intro c hc
      rw [List.mem_singleton] at hc
      subst hc
      exact hd n h
    · rw [digitsMSB, dif_neg h]
      intro c hc
      rcases List.mem_append.mp hc with hc | hc
      · exact ih (n / 10) (Nat.div_lt_self (by omega) (by omega)) c hc
      · rw [List.mem_singleton] at hc
        subst hc
        exact hd (n % 10) (Nat.mod_lt _ (by omega))

theorem digitsMSB_ne_nil (n : Nat) : digitsMSB n ≠ [] := by
  by_cases h : n < 10
  · rw [digitsMSB, dif_pos h]
    simp
  · rw [digitsMSB, dif_neg h]
    simp

theorem digitsMSB_foldl (n : Nat) :
    (digitsMSB n).foldl (fun a c => a * 10 + (c.toNat - '0'.toNat)) 0 = n := by
  induction n using Nat.strong_induction_on with
  | _ n ih =>
    have h48 : ∀ k, k < 10 → (Nat.digitChar k).toNat - 48 = k := by decide
    have h0c : ('0'.toNat) = 48 := rfl
    by_cases h : n < 10
    · rw [digitsMSB, dif_pos h]
      simp only [List.foldl_cons, List.foldl_nil]
      have := h48 n h
      omega
    · rw [digitsMSB, dif_neg h, List.foldl_append]
      rw [ih (n / 10) (Nat.div_lt_self (by omega) (by omega))]
      simp only [List.foldl_cons, List.foldl_nil]
      have := h48 (n % 10) (Nat.mod_lt _ (by omega))
      have hdm : 10 * (n / 10) + n % 10 = n := Nat.div_add_mod n 10
      omega

theorem natRepr_eq_digitsMSB (n : Nat) : Nat.repr n = (digitsMSB n).asString := by
  rw [Nat.repr, Nat.toDigits, toDigitsCore_eq_digitsMSB (n+1) n [] (by omega),
    List.append_nil]

theorem toNat?_natRepr (n : Nat) : (Nat.repr n).toNat? = some n := by
  rw [natRepr_eq_digitsMSB]
  have hdata : ((digitsMSB n).asString).data = digitsMSB n := rfl
  have hne : (digitsMSB n).asString ≠ "" := by
    intro hcon
    have hd2 : ((digitsMSB n).asString).data = ("" : String).data := by rw [hcon]
    rw [hdata] at hd2
    exact digitsMSB_ne_nil n (by simpa using hd2)
  have hisnat : ((digitsMSB n).asString).isNat = true := by
    rw [String.isNat]
    refine Bool.and_eq_true _ _ |>.mpr ⟨?_, ?_⟩
    · rw [Bool.not_eq_true']
      exact Bool.eq_false_iff.mpr (fun hh => hne (String.isEmpty_iff _ |>.mp hh))
    · rw [String.all_eq, hdata]
      rw [List.all_eq_true]
      intro c hc
      exact digitsMSB_all_digits n c hc
  rw [String.toNat?, if_pos hisnat, String.foldl_eq, hdata, digitsMSB_foldl]

theorem parse_int_string_toString (i : Int) : parse_int_string (toString i) = some i := by
  rcases i with m | m
  · have h1 : toString (Int.ofNat m) = Nat.repr m := rfl
    have hdata : (Nat.repr m).data = digitsMSB m := by
      rw [natRepr_eq_digitsMSB]
      rfl
    rcases hcons : digitsMSB m with _ | ⟨c, cs⟩
    · exact absurd hcons (digitsMSB_ne_nil m)
    · have hcd : c.isDigit = true :=
        digitsMSB_all_digits m c (by rw [hcons]; exact List.mem_cons_self _ _)
      have hcne : c ≠ '-' := by
        intro hc
        subst hc
        exact absurd hcd (by decide)
      rw [h1, parse_int_string, if_neg ?hno]
      case hno =>
        rw [hdata, hcons]
        simp [hcne]
      rw [toNat?_natRepr]
      rfl
  · have h1 : toString (Int.negSucc m) = "-" ++ Nat.repr (m + 1) := rfl
    have hdata : ("-" ++ Nat.repr (m + 1)).data = '-' :: (Nat.repr (m + 1)).data := rfl
    rw [h1, parse_int_string, if_pos ?hyes]
    case hyes =>
      rw [hdata]
      rfl
    have htail : ("-" ++ Nat.repr (m + 1)).data.tail = (Nat.repr (m + 1)).data := by
      rw [hdata]
      rfl
    rw [htail]
    have hmk : String.mk (Nat.repr (m + 1)).data = Nat.repr (m + 1) := rfl
    rw [hmk, toNat?_natRepr]
    simp [Int.negSucc_eq]

theorem read_back_sonarr (ids : List Int) :
    read_back_ids (sonarr_list ids) = pySortedInt ids := by
  rw [read_back_ids, sonarr_list, List.filterMap_map]
  have hfun : ((fun r : String × String => parse_int_string r.2) ∘
      (fun tvdb_id : Int => ("tvdbId", toString tvdb_id))) = some := by
    funext i
    exact parse_int_string_toString i
  rw [hfun, List.filterMap_some]

theorem read_back_radarr (ids : List Int) :
    read_back_ids (radarr_list ids) = pySortedInt ids := by
  rw [read_back_ids, radarr_list, List.filterMap_map]
  have hfun : ((fun r : String × String => parse_int_string r.2) ∘
      (fun tmdb_id : Int => ("id", toString tmdb_id))) = some := by
    funext i
    exact parse_int_string_toString i
  rw [hfun, List.filterMap_some]

/-- C1 counterexample: with both source ids 1 and 2 mapped to tvdb id 100,
candidate (2, "B") has its source id present in the table with a non-null
target id, yet its audit line lands in neither found nor unknown — the
claim's exactly-one classification and its found-iff-non-null direction both
fail. -/
theorem C1_counterexample :
    resolve_db_id tbl_dup "tvdb" 2 = some 100 ∧
    ¬ ("2->100: B" ∈ (map_mal_to_db [(1,"A"),(2,"B")] tbl_dup "tvdb").found_titles ∨
       "2->100: B" ∈ (map_mal_to_db [(1,"A"),(2,"B")] tbl_dup "tvdb").unknown_titles) := by
  decide

/-- C1 (amended): resolve places every candidate in at most one of the two
lists.  unknown collects exactly (in order) the candidates whose source id
is absent or maps to a null target id; the result id set holds a target id
exactly when some candidate resolves to it; and at most one audit line is
emitted per candidate (a candidate whose non-null target id was already
resolved earlier lands in neither list). -/
theorem C1_resolve_classification (cands : List (Int × String))
    (tbl : Int → Option DbIds) (db : String) :
    (map_mal_to_db cands tbl db).unknown_titles =
      (cands.filter (cand_unmapped tbl db)).map (unknown_line tbl db) ∧
    (∀ t : Int, t ∈ (map_mal_to_db cands tbl db).db_ids ↔
      ∃ c ∈ cands, resolve_db_id tbl db c.1 = some t) ∧
    (map_mal_to_db cands tbl db).found_titles.length +
      (map_mal_to_db cands tbl db).unknown_titles.length ≤ cands.length := by
  refine ⟨?_, ?_, ?_⟩
  · have h := map_foldl_unknown tbl db cands ⟨[], [], []⟩
    simpa [map_mal_to_db] using h
  · intro t
    have h := map_foldl_mem_ids tbl db cands ⟨[], [], []⟩ t
    simpa [map_mal_to_db] using h
  · have h := map_foldl_out_len tbl db cands ⟨[], [], []⟩
    simpa [map_mal_to_db] using h

/-- C2 counterexample: five quarters back from January 2026 the source
returns the year 2025 (its single wrap conditional fires only once), while
direct calendar subtraction of 15 months lands in October 2024. -/
theorem C2_counterexample :
    get_current_season_and_year 1 2026 5 ≠ calendar_months_back 1 2026 15 := by
  decide

/-- C2 (amended): for every current month m in 1..12 and every offset n with
3n ≤ m + 11 (in particular every n ≤ 4, which covers the n in 0..3 the
orchestrator uses), get_current_season_and_year agrees with direct calendar
subtraction of 3n months with correct year rollover. -/
theorem C2_season_calendar_agreement (m y : Int) (n : Nat) (h1 : 1 ≤ m)
    (h2 : m ≤ 12) (h3 : 3 * (n : Int) ≤ m + 11) :
    get_current_season_and_year m y n = calendar_months_back m y (3 * n) := by
  simp only [get_current_season_and_year, calendar_months_back]
  by_cases h : m - (n : Int) * 3 < 1
  · have hm : (m - ((3 * n : Nat) : Int) - 1) % 12 + 1 = 12 + (m - (n : Int) * 3) := by
      push_cast
      omega
    have hy : y + (m - ((3 * n : Nat) : Int) - 1) / 12 = y - 1 := by
      push_cast
      omega
    rw [if_pos h, if_pos h, hm, hy]
  · have hm : (m - ((3 * n : Nat) : Int) - 1) % 12 + 1 = m - (n : Int) * 3 := by
      push_cast
      omega
    have hy : y + (m - ((3 * n : Nat) : Int) - 1) / 12 = y := by
      push_cast
      omega
    rw [if_neg h, if_neg h, hm, hy]

/-- C2 witness: four quarters back from October 2026 both computations give
fall 2025. -/
theorem C2_season_calendar_agreement_witness :
    (1 ≤ (10 : Int) ∧ (10 : Int) ≤ 12 ∧ 3 * ((4 : Nat) : Int) ≤ 10 + 11) ∧
    get_current_season_and_year 10 2026 4 = calendar_months_back 10 2026 (3 * 4) :=
  ⟨⟨by decide, by decide, by decide⟩,
   C2_season_calendar_agreement 10 2026 4 (by decide) (by decide) (by decide)⟩

/-- C3: the result id set of resolve never holds a target id twice; found
carries exactly one audit line per resolved id; and each resolved target id
is attributed to the first candidate in encounter order that resolves to it
(first-seen wins), whose audit line is in found. -/
theorem C3_dedup_by_target_first_wins (cands : List (Int × String))
    (tbl : Int → Option DbIds) (db : String) :
    (map_mal_to_db cands tbl db).db_ids.Nodup ∧
    (map_mal_to_db cands tbl db).found_titles.length =
      (map_mal_to_db cands tbl db).db_ids.length ∧
    ∀ t : Int, t ∈ (map_mal_to_db cands tbl db).db_ids →
      ∃ c, cands.find? (fun q => resolve_db_id tbl db q.1 == some t) = some c ∧
        found_line c t ∈ (map_mal_to_db cands tbl db).found_titles := by
  refine ⟨?_, ?_, ?_⟩
  · exact map_foldl_nodup tbl db cands ⟨[], [], []⟩ (by simp)
  · have h := map_foldl_found_len tbl db cands ⟨[], [], []⟩
    simpa [map_mal_to_db] using h
  · intro t ht
    exact map_foldl_first_wins tbl db cands ⟨[], [], []⟩ t (by simp) ht

/-- C3 witness: with source ids 1 and 2 both mapped to tvdb 100, id 100 is
resolved and attributed to the first candidate (1, "A"). -/
theorem C3_dedup_by_target_first_wins_witness :
    (100 : Int) ∈ (map_mal_to_db [(1,"A"),(2,"B")] tbl_dup "tvdb").db_ids ∧
    ∃ c, ([((1 : Int),"A"),(2,"B")].find?
        (fun q => resolve_db_id tbl_dup "tvdb" q.1 == some 100) = some c) ∧
      found_line c 100 ∈ (map_mal_to_db [(1,"A"),(2,"B")] tbl_dup "tvdb").found_titles :=
  ⟨by decide,
   (C3_dedup_by_target_first_wins [(1,"A"),(2,"B")] tbl_dup "tvdb").2.2 100 (by decide)⟩

/-- C4: filter_anime_entries returns exactly the (id, title) pairs of the
entries satisfying score ≥ minScore, votes ≥ minVotes, and (when the media
type filter is set) a case-insensitive media type match, in input order,
with a missing score or vote field read as 0. -/
theorem C4_filter_exact (entries : List Entry) (min_score : ℚ)
    (min_votes : Int) (media_type_filter : Option String) :
    filter_anime_entries entries min_score min_votes media_type_filter =
    (entries.filter (entry_passes min_score min_votes media_type_filter)).map
      (fun e => (e.node.id, e.node.title)) :=
  filter_anime_entries_eq entries min_score min_votes media_type_filter

/-- C5 counterexample: with the credential absent, the run still issues the
mapping-feed network request before the configuration error is raised, so
the error is not raised before any network call. -/
theorem C5_counterexample :
    (main_run 10 2026 none [] (fun _ _ => [])).1 = [Event.netRequest mapping_url] ∧
    (main_run 10 2026 none [] (fun _ _ => [])).2 =
      Except.error (PipelineError.configError
        "MAL_CLIENT_ID environment variable is not set!") := by
  constructor <;> rfl

/-- C5 (amended): whenever the credential environment value is absent or
empty, every run of main fails with the configuration error before any
catalog network call — but after the single mapping-feed network call,
which main issues first. -/
theorem C5_config_error_after_mapping_fetch (nowMonth nowYear : Int)
    (env : Option String) (feed : List FeedItem)
    (catalog : Int → String → List Entry) (h : env.getD "" = "") :
    main_run nowMonth nowYear env feed catalog =
      ([Event.netRequest mapping_url],
       Except.error (PipelineError.configError
         "MAL_CLIENT_ID environment variable is not set!")) := by
  simp [main_run, fetch_seasons_run, get_seasonal_anime_run, h]

/-- C5 witness: the empty-environment run in October 2026 with an empty feed
and an empty catalog. -/
theorem C5_config_error_after_mapping_fetch_witness :
    ((none : Option String).getD "" = "") ∧
    main_run 10 2026 none [] (fun _ _ => []) =
      ([Event.netRequest mapping_url],
       Except.error (PipelineError.configError
         "MAL_CLIENT_ID environment variable is not set!")) :=
  ⟨rfl, C5_config_error_after_mapping_fetch 10 2026 none [] (fun _ _ => []) rfl⟩

/-- C6: the cross-reference table holds key k exactly when some feed record
carries source id k together with at least one non-null target id, and the
value stored at k is the one of the last such record (last-write-wins, no
merging of partial records). -/
theorem C6_mapping_last_write_wins (data : List FeedItem) (k : Int) :
    create_mal_to_db_mapping data k =
      ((data.filter (fun it => it.mal_id == some k &&
          (it.tvdb_id.isSome || it.themoviedb_id.isSome))).getLast?).map
        (fun it => (⟨it.tvdb_id, it.themoviedb_id⟩ : DbIds)) :=
  create_mapping_char data k

/-- C7 counterexample: on the spec's scenario the second unknown audit line
is rendered with Python str(None), i.e. "2->None: B", not "2->null: B". -/
theorem C7_counterexample :
    (map_mal_to_db [(1,"A"),(2,"B"),(3,"C")] tbl_scenario "tvdb").unknown_titles ≠
      ["2->null: B", "3->?: C"] := by
  decide

/-- C7 (amended): on the scenario table resolve yields the result id set
[100], found = ["1->100: A"], and unknown = ["2->None: B", "3->?: C"]
(the null target id prints as "None"). -/
theorem C7_scenario :
    map_mal_to_db [(1,"A"),(2,"B"),(3,"C")] tbl_scenario "tvdb" =
      ⟨[100], ["1->100: A"], ["2->None: B", "3->?: C"]⟩ := by
  decide

/-- C8: each output stage writes a JSON array with one single-field object
per resolved id, the id stringified, in ascending numeric order, and a text
report of the fixed header line followed by the found audit lines sorted
lexicographically, one per line. -/
theorem C8_writer_sorted_outputs (ids : List Int) (titles : List String) :
    (∃ s u, s.Perm ids ∧ List.Sorted (· ≤ ·) s ∧
      u.Perm titles ∧ List.Sorted (· ≤ ·) u ∧
      main_tv_outputs ids titles =
        (json_dump_records (s.map (fun i => ("tvdbId", toString i))),
         "MAL->TVDB: Title\n" ++ String.intercalate "\n" u)) ∧
    (∃ s u, s.Perm ids ∧ List.Sorted (· ≤ ·) s ∧
      u.Perm titles ∧ List.Sorted (· ≤ ·) u ∧
      main_movie_outputs ids titles =
        (json_dump_records (s.map (fun i => ("id", toString i))),
         "MAL->TMDB: Title\n" ++ String.intercalate "\n" u)) := by
  refine ⟨⟨pySortedInt ids, pySortedStr titles, ?_, ?_, ?_, ?_, rfl⟩,
          ⟨pySortedInt ids, pySortedStr titles, ?_, ?_, ?_, ?_, rfl⟩⟩ <;>
    first
      | exact List.perm_insertionSort _ _
      | exact List.sorted_insertionSort _ _

/-- C9: reading the written record list back and converting each object's
id field string to an integer recovers exactly the original integer set,
for both output stages. -/
theorem C9_roundtrip (ids : List Int) :
    (read_back_ids (sonarr_list ids)).toFinset = ids.toFinset ∧
    (read_back_ids (radarr_list ids)).toFinset = ids.toFinset := by
  constructor
  · rw [read_back_sonarr, pySortedInt]
    ext a
    simp only [List.mem_toFinset]
    exact (List.perm_insertionSort _ ids).mem_iff
  · rw [read_back_radarr, pySortedInt]
    ext a
    simp only [List.mem_toFinset]
    exact (List.perm_insertionSort _ ids).mem_iff

/-- C10: calling filter_anime_entries with the empty string as media type
filter behaves exactly as passing no filter at all, because the guard tests
Python truthiness rather than presence. -/
theorem C10_empty_filter_is_unset (entries : List Entry) (min_score : ℚ)
    (min_votes : Int) :
    filter_anime_entries entries min_score min_votes (some "") =
    filter_anime_entries entries min_score min_votes none := by
  rw [filter_anime_entries_eq, filter_anime_entries_eq]
  have hp : entry_passes min_score min_votes (some "") =
      entry_passes min_score min_votes none := by
    funext e
    simp [entry_passes, optStrTruthy]
  rw [hp]
